import Mathlib

/-!
Verification of the skill synchronization and cross-entity reference
management subsystem (`utils/skillManager.js` of the portfolio backend),
shallowly embedded in Lean.

Modelling conventions:
* MongoDB ObjectIds and all string data are Lean `String`s; the generated
  id of a newly inserted Skill document is a zero-padded 24-hex-digit
  counter value (`genId`), mirroring that real ObjectIds are 24 hex chars.
* Collections are lists; `findOne`/`findById` return the first match;
  `save` writes a document back over every stored document with the same
  id (ids are unique in the real store); inserting appends.
* JavaScript exceptions are modelled with `Except JsErr`: `Error(...)`
  throws, `undefined.toString()` is a `TypeError`, and an invalid
  `new RegExp` pattern is a `SyntaxError`.
* The case-insensitive anchored regexes the code builds from skill names
  (`new RegExp("^" + name + "$", "i")`) are modelled in two parts: a
  validity check (`anchoredRegexValid`, capturing the JavaScript
  "nothing to repeat" rule for the quantifiers `+ * ?`, the rule that
  makes `new RegExp("^C++$")` throw) and, when valid, matching modelled
  as case-insensitive string equality. The equality model is exact for
  names free of regex metacharacters; general theorems therefore carry a
  `regexSafe` hypothesis on the names they quantify over.
* String lowering/trimming is implemented over the char list directly
  (ASCII-faithful to `toLowerCase`, `toUpperCase`, `trim`, `\s`).
-/

namespace Portfolio

/-- The `"` character (written via its code so the embedding avoids quote
literals inside character syntax). -/
def dquoteChar : Char := Char.ofNat 34

/-- The single-quote character. -/
def squoteChar : Char := Char.ofNat 39

/-- JS `\s` / `trim` whitespace, restricted to the ASCII cases. -/
def jsWS (c : Char) : Bool := c.isWhitespace

/-- `String.prototype.toLowerCase`, over the char list. -/
def lowerStr (s : String) : String := String.mk (s.data.map Char.toLower)

/-- `String.prototype.toUpperCase`, over the char list. -/
def upperStr (s : String) : String := String.mk (s.data.map Char.toUpper)

/-- `String.prototype.trim`, over the char list. -/
def trimStr (s : String) : String :=
  String.mk (((s.data.dropWhile jsWS).reverse.dropWhile jsWS).reverse)

/-- Case-insensitive string equality: the semantics of matching a target
against the anchored case-insensitive regex built from a metacharacter-free
pattern. -/
def ciEq (a b : String) : Bool := lowerStr a == lowerStr b

/-- Hex digit test used by the ObjectId-shaped-string check
`/^[0-9a-fA-F]{24}$/`. -/
def isHexDigitJS (c : Char) : Bool :=
  c.isDigit || (('a' ≤ c) && (c ≤ 'f')) || (('A' ≤ c) && (c ≤ 'F'))

/-- `/^[0-9a-fA-F]{24}$/.test(s)`. -/
def isHex24 (s : String) : Bool := s.length == 24 && s.data.all isHexDigitJS

/-- Scanner state for the JS regex validity model: whether the previous
token can be quantified (`atom`), was a quantifier (`quant`, which may
still take a lazy `?`), or can take no quantifier (`start`, also used
after anchors). -/
inductive RState
  | start
  | atom
  | quant
  | lazyQ
  deriving DecidableEq

/-- One step of the JS regex validity scan: the quantifiers `+ * ?` need
a preceding quantifiable atom (`?` may also follow a quantifier, as a
lazy modifier); anchors are not quantifiable; everything else is an atom. -/
def regexStep (st : RState) (c : Char) : Option RState :=
  if c == '+' || c == '*' then
    match st with
    | RState.atom => some RState.quant
    | _ => none
  else if c == '?' then
    match st with
    | RState.atom => some RState.quant
    | RState.quant => some RState.lazyQ
    | _ => none
  else if c == '^' || c == '$' then some RState.start
  else some RState.atom

/-- Run the validity scan over a char list. -/
def regexValidFrom : RState → List Char → Bool
  | _, [] => true
  | st, c :: cs =>
    match regexStep st c with
    | some st2 => regexValidFrom st2 cs
    | none => false

/-- Whether `new RegExp("^" + n + "$", "i")` constructs without throwing,
per the quantifier ("nothing to repeat") rule. -/
def anchoredRegexValid (n : String) : Bool :=
  regexValidFrom RState.start (('^' :: n.data) ++ ['$'])

/-- A name whose chars are alphanumeric, space, `-` or `_`: such a name
contains no regex metacharacter, so the anchored case-insensitive regex
built from it is valid and matches exactly the case-insensitive equals. -/
def safeChar (c : Char) : Bool := c.isAlphanum || c == ' ' || c == '-' || c == '_'

/-- All chars of the name are `safeChar`. -/
def regexSafe (n : String) : Bool := n.data.all safeChar

/-- A thrown JavaScript value. -/
inductive JsErr
  | typeErr (msg : String)
  | synErr (msg : String)
  | err (msg : String)
  deriving DecidableEq

deriving instance DecidableEq for Except

/-- One entry of a Skill document `sources` array. `referenceId := none`
models a stored entry without a `referenceId` field, the shape the admin
create route persists for manual skills (`sources: [{ type: 'manual' }]`). -/
structure Source where
  type : String
  referenceId : Option String
  deriving DecidableEq

/-- A Skill document (display-only fields `level`, `description`, `order`
of the schema are omitted; no operation under verification reads them). -/
structure Skill where
  id : String
  name : String
  category : String
  proficiency : String
  isActive : Bool
  sources : List Source
  deriving DecidableEq

/-- A Project document: `skills` is the ObjectId mirror list, and
`technologies` the string-name list. -/
structure Project where
  id : String
  isActive : Bool
  skills : List String
  technologies : List String
  deriving DecidableEq

/-- An embedded skill subdocument of a Certification. `subId` is the
subdocument's own automatic `_id` (a subdocument id, not the Skill id). -/
structure CertSkill where
  name : String
  proficiency : String
  verified : Bool
  subId : Option String
  deriving DecidableEq

/-- A Certification document. -/
structure Certification where
  id : String
  isActive : Bool
  skills : List CertSkill
  deriving DecidableEq

/-- One entry of an Education `skills` array. Modelled from the spec:
the Education schema file is not part of the sources under review; per
spec section 3 the array tolerates a mixed shape of plain string names,
embedded objects carrying a name (with their own subdocument id), and
Skill ObjectId references. -/
inductive EduEntry
  | str (s : String)
  | obj (name : String) (subId : Option String)
  | ref (i : String)
  deriving DecidableEq

/-- An Education document (spec-modelled shape, see `EduEntry`). -/
structure Education where
  id : String
  isActive : Bool
  skills : List EduEntry
  deriving DecidableEq

/-- The document store. `nextId` feeds the id generator for inserts. -/
structure DB where
  skills : List Skill
  projects : List Project
  certifications : List Certification
  education : List Education
  nextId : Nat
  deriving DecidableEq

/-- The ObjectId assigned to the `n`-th inserted document: `n` in hex,
zero-padded to 24 digits. -/
def genId (n : Nat) : String :=
  let ds := Nat.toDigits 16 n
  String.mk (List.replicate (24 - ds.length) '0' ++ ds)

/-- `Skill.findById`. -/
def findSkillById (db : DB) (i : String) : Option Skill :=
  db.skills.find? (fun s => s.id == i)

/-- `Skill.findOne({ name })` (exact match). -/
def findSkillByExactName (db : DB) (n : String) : Option Skill :=
  db.skills.find? (fun s => s.name == n)

/-- `Skill.findOne({ name: { $regex: ^n$, i } })` after the regex was
successfully constructed: first skill whose name matches
case-insensitively. -/
def findSkillByNameCI (db : DB) (n : String) : Option Skill :=
  db.skills.find? (fun s => ciEq n s.name)

/-- `skill.save()` for an existing document: write back over the stored
document(s) with the same id. -/
def saveSkill (db : DB) (sk : Skill) : DB :=
  { db with skills := db.skills.map (fun t => if t.id == sk.id then sk else t) }

/-- `Project.findById`. -/
def findProjectById (db : DB) (i : String) : Option Project :=
  db.projects.find? (fun p => p.id == i)

/-- `Certification.findById`. -/
def findCertById (db : DB) (i : String) : Option Certification :=
  db.certifications.find? (fun c => c.id == i)

/-- `Education.findById`. -/
def findEduById (db : DB) (i : String) : Option Education :=
  db.education.find? (fun e => e.id == i)

/-- `project.save()`. -/
def saveProject (db : DB) (p : Project) : DB :=
  { db with projects := db.projects.map (fun q => if q.id == p.id then p else q) }

/-- `certification.save()`. -/
def saveCert (db : DB) (c : Certification) : DB :=
  { db with certifications := db.certifications.map (fun d => if d.id == c.id then c else d) }

/-- `education.save()`. -/
def saveEdu (db : DB) (e : Education) : DB :=
  { db with education := db.education.map (fun d => if d.id == e.id then e else d) }

/-- Is this char stripped by `replace(/^["'()]+|["'()]+$/g, '')`? -/
def quoteParen (c : Char) : Bool :=
  c == dquoteChar || c == squoteChar || c == '(' || c == ')'

/-- `replace(/\s+/g, ' ')`: collapse every whitespace run to one space.
The flag records whether the scan is inside a run. -/
def collapseWSAux : Bool → List Char → List Char
  | _, [] => []
  | inRun, c :: cs =>
    if jsWS c then
      if inRun then collapseWSAux true cs
      else ' ' :: collapseWSAux true cs
    else c :: collapseWSAux false cs

/-- `replace(/\s+/g, ' ')` over a char list. -/
def collapseWS (l : List Char) : List Char := collapseWSAux false l

/-- `_cleanSkillName`: trim, strip leading/trailing quote and parenthesis
runs, delete every embedded double quote, collapse whitespace runs, trim. -/
def cleanSkillName (name : String) : String :=
  let l0 := (trimStr name).data
  let l1 := l0.dropWhile quoteParen
  let l2 := (l1.reverse.dropWhile quoteParen).reverse
  let l3 := l2.filter (fun c => !(c == dquoteChar))
  trimStr (String.mk (collapseWS l3))

/-- Prefix test on char lists, for the substring check below. -/
def startsWithChars : List Char → List Char → Bool
  | [], _ => true
  | _ :: _, [] => false
  | a :: as, b :: bs => a == b && startsWithChars as bs

/-- `String.prototype.includes`: does `needle` occur contiguously in
`hay`? -/
def hasSubstr (needle : List Char) : List Char → Bool
  | [] => startsWithChars needle []
  | b :: bs => startsWithChars needle (b :: bs) || hasSubstr needle bs

/-- `keywords.some(k => name === k || name.includes(k))`. -/
def nameHasKeyword (n : String) (ks : List String) : Bool :=
  ks.any (fun k => n == k || hasSubstr k.data n.data)

/-- `_getCategoryForSkillName`: first matching keyword set wins, default
to `Other`. -/
def getCategoryForSkillName (skillName : String) : String :=
  if skillName == "" then "Other"
  else
    let n := trimStr (lowerStr skillName)
    if nameHasKeyword n ["javascript", "typescript", "python", "java", "c#",
        "c++", "go", "rust", "php", "ruby", "kotlin", "swift", "dart", "sql",
        "html", "css"] then "Language"
    else if nameHasKeyword n ["react", "next", "next.js", "vue", "nuxt",
        "angular", "svelte", "redux", "tailwind", "bootstrap", "material ui",
        "mui", "express", "nestjs", "django", "flask", "fastapi", "laravel",
        "spring", "spring boot"] then "Framework / Library"
    else if nameHasKeyword n ["mongodb", "mongoose", "mysql", "postgresql",
        "postgres", "sqlite", "redis", "oracle", "mariadb", "firebase",
        "supabase"] then "Database"
    else if nameHasKeyword n ["docker", "kubernetes", "k8s", "aws", "azure",
        "gcp", "github actions", "gitlab ci", "jenkins", "ci/cd",
        "terraform"] then "DevOps / Cloud"
    else if nameHasKeyword n ["git", "github", "gitlab", "bitbucket",
        "vscode", "visual studio", "webstorm", "eslint", "prettier",
        "webpack", "vite", "rollup", "babel"] then "Tooling"
    else if nameHasKeyword n ["jest", "mocha", "chai", "vitest", "cypress",
        "playwright", "selenium", "testing library",
        "react testing library"] then "Testing"
    else if nameHasKeyword n ["figma", "adobe xd", "sketch", "framer",
        "tailwind ui", "chakra ui"] then "UI / UX"
    else "Other"

/-- An element of the heterogeneous identifier list handed to
`syncSkills`: a string, or an object whose `_id` / `name` fields (when
present and truthy, i.e. nonempty) are recorded. -/
inductive SIdent
  | str (s : String)
  | obj (oid : Option String) (oname : Option String)
  deriving DecidableEq

/-- One step of the `syncSkills` normalization loop over
`(seenKeys, resolvedNames)`: dedupe by lowercased key, preserving the
first-seen spelling; objects resolve their `_id` through the store first,
then fall back to their `name`, then to `String(item)` which for a plain
object is the literal text `[object Object]`; id-shaped strings resolve
through the store. -/
def normStep (db : DB) (acc : List String × List String) (it : SIdent) :
    List String × List String :=
  let seen := acc.1
  let names := acc.2
  let push := fun (n : String) =>
    let k := lowerStr n
    if seen.contains k then (seen, names) else (k :: seen, names ++ [n])
  let asString := fun (s : String) =>
    let itemStr := cleanSkillName s
    if itemStr == "" then (seen, names)
    else if isHex24 itemStr then
      match findSkillById db itemStr with
      | some ex => if ex.name == "" then push itemStr else push ex.name
      | none => push itemStr
    else push itemStr
  let objTail := fun (oname : Option String) =>
    match oname with
    | some n => push (trimStr n)
    | none => asString "[object Object]"
  match it with
  | SIdent.str s => if s == "" then (seen, names) else asString s
  | SIdent.obj oid oname =>
    match oid with
    | some i =>
      match findSkillById db i with
      | some ex => if ex.name == "" then objTail oname else push ex.name
      | none => objTail oname
    | none => objTail oname

/-- The whole normalization loop (lines 22-62): the deduplicated ordered
list of resolved names. -/
def normalizeSkillNames (db : DB) (items : List SIdent) : List String :=
  (items.foldl (normStep db) ([], [])).2

/-- `skill.sources.find(s => s.referenceId.toString() === referenceId.toString())`:
scanning stops at the first entry whose `referenceId` equals the argument;
visiting an entry without a `referenceId` field throws a `TypeError`
(the type of the entry is not consulted). -/
def findSourceByRefId : List Source → String → Except JsErr (Option Source)
  | [], _ => Except.ok none
  | s :: rest, r =>
    match s.referenceId with
    | none => Except.error (JsErr.typeErr "Cannot read properties of undefined")
    | some rid => if rid == r then Except.ok (some s) else findSourceByRefId rest r

/-- The per-name body of the `syncSkills` lookup loop (lines 66-94):
exact-name lookup, then (constructing the anchored case-insensitive
regex, which throws on an invalid pattern) case-insensitive lookup; a
found skill gets the `(type, referenceId)` entry appended only when no
existing entry carries the same `referenceId`; a missing skill is created
from the cleaned name (skipped when the cleaned name is empty). -/
def syncOne (ty r : String) (db : DB) (skillName : String) :
    Except JsErr (DB × Option Skill) :=
  let withSkill := fun (sk : Skill) =>
    match findSourceByRefId sk.sources r with
    | Except.error e => Except.error e
    | Except.ok (some _) => Except.ok (saveSkill db sk, some sk)
    | Except.ok none =>
      let sk2 := { sk with sources := sk.sources ++ [⟨ty, some r⟩] }
      Except.ok (saveSkill db sk2, some sk2)
  match findSkillByExactName db skillName with
  | some sk => withSkill sk
  | none =>
    if anchoredRegexValid skillName then
      match findSkillByNameCI db skillName with
      | some sk => withSkill sk
      | none =>
        let cn := cleanSkillName skillName
        if cn == "" then Except.ok (db, none)
        else
          let sk : Skill :=
            { id := genId db.nextId, name := cn,
              category := getCategoryForSkillName cn,
              proficiency := "Beginner", isActive := true,
              sources := [⟨ty, some r⟩] }
          Except.ok ({ db with
            skills := db.skills ++ [sk]
            nextId := db.nextId + 1 }, some sk)
    else Except.error (JsErr.synErr ("Invalid regular expression: " ++ skillName))

/-- Chain `syncOne` over the resolved names, collecting the synced
skills in order; the first thrown error rejects the whole call. -/
def syncGo (ty r : String) : DB → List String → Except JsErr (DB × List Skill)
  | db, [] => Except.ok (db, [])
  | db, n :: rest =>
    match syncOne ty r db n with
    | Except.error e => Except.error e
    | Except.ok (db2, osk) =>
      match syncGo ty r db2 rest with
      | Except.error e => Except.error e
      | Except.ok (db3, l) =>
        Except.ok (db3, match osk with | some sk => sk :: l | none => l)

/-- `syncSkills(skillNames, source, referenceId)`. -/
def syncSkills (db : DB) (items : List SIdent) (ty r : String) :
    Except JsErr (DB × List Skill) :=
  syncGo ty r db (normalizeSkillNames db items)

/-- An identifier handed to `_resolveSkill`: an object with a truthy
`name` field (possibly also carrying an `_id`, which this branch never
reads), an object with a truthy `_id` and no truthy name, or a string. -/
inductive RIdent
  | objNamed (name : String) (oid : Option String)
  | objId (oid : String)
  | str (s : String)
  deriving DecidableEq

/-- `Skill.findOne({ name: { $regex: new RegExp("^" + trim(raw) + "$", "i") } })`,
including the possible `SyntaxError` from the regex constructor. -/
def lookupByNameCI (db : DB) (raw : String) : Except JsErr (Option Skill) :=
  let t := trimStr raw
  if anchoredRegexValid t then Except.ok (findSkillByNameCI db t)
  else Except.error (JsErr.synErr ("Invalid regular expression: " ++ t))

/-- `_resolveSkill(identifier)` (lines 100-122). An object with a truthy
`name` returns the case-insensitive name lookup directly, found or not;
an object with only an `_id` falls back, when the id lookup fails, to the
string path on `String(identifier)`, the literal `[object Object]`; a
falsy (empty) string resolves to null; an ObjectId-shaped string tries
the id first and then the name. -/
def resolveSkill (db : DB) (ident : RIdent) : Except JsErr (Option Skill) :=
  match ident with
  | RIdent.objNamed n _ => lookupByNameCI db n
  | RIdent.objId i =>
    match findSkillById db i with
    | some sk => Except.ok (some sk)
    | none => lookupByNameCI db "[object Object]"
  | RIdent.str s =>
    if s == "" then Except.ok none
    else if isHex24 s then
      match findSkillById db s with
      | some sk => Except.ok (some sk)
      | none => lookupByNameCI db s
    else lookupByNameCI db s

/-- A reference record as reported by `getSkillReferences` (the display
title/degree fields are dropped; only the id and the `isActive` flag are
read by the operations under verification). -/
structure Ref where
  id : String
  isActive : Bool
  deriving DecidableEq

/-- The result shape of `getSkillReferences`. -/
structure SkillRefs where
  projects : List Ref
  certifications : List Ref
  education : List Ref
  deriving DecidableEq

/-- The Project query `{$or: [{skills: id}, {technologies: ^name$ i}]}`. -/
def projectMatches (sk : Skill) (p : Project) : Bool :=
  p.skills.contains sk.id || p.technologies.any (fun t => ciEq sk.name t)

/-- The Certification query
`{$or: [{'skills._id': id}, {'skills.name': ^name$ i}]}`. -/
def certMatches (sk : Skill) (c : Certification) : Bool :=
  c.skills.any (fun e => e.subId == some sk.id)
    || c.skills.any (fun e => ciEq sk.name e.name)

/-- The Education query `{$or: [{skills: id}, {skills: ^name$ i}]}`: the
scalar equality matches ObjectId elements, the regex matches string
elements; embedded objects match neither arm. -/
def eduMatches (sk : Skill) (e : Education) : Bool :=
  (e.skills.any (fun x => match x with | EduEntry.ref i => i == sk.id | _ => false))
    || (e.skills.any (fun x => match x with | EduEntry.str s => ciEq sk.name s | _ => false))

/-- `getSkillReferences(skillId)` (lines 185-240): resolve; an unresolved
skill yields empty reference lists; otherwise run the three reference
queries, each built on the anchored case-insensitive regex over the
skill name (whose construction throws on an invalid pattern). -/
def getSkillReferences (db : DB) (ident : RIdent) : Except JsErr SkillRefs :=
  match resolveSkill db ident with
  | Except.error e => Except.error e
  | Except.ok none => Except.ok ⟨[], [], []⟩
  | Except.ok (some sk) =>
    if anchoredRegexValid sk.name then
      Except.ok
        ⟨(db.projects.filter (projectMatches sk)).map (fun p => ⟨p.id, p.isActive⟩),
         (db.certifications.filter (certMatches sk)).map (fun c => ⟨c.id, c.isActive⟩),
         (db.education.filter (eduMatches sk)).map (fun e => ⟨e.id, e.isActive⟩)⟩
    else Except.error (JsErr.synErr ("Invalid regular expression: " ++ sk.name))

/-- The result shape of `canDeleteSkill`. -/
structure CanDelRes where
  canDelete : Bool
  activeReferences : List Ref
  totalReferences : Nat
  deriving DecidableEq

/-- `canDeleteSkill(skillId)` (lines 243-257). -/
def canDeleteSkill (db : DB) (ident : RIdent) : Except JsErr CanDelRes :=
  match getSkillReferences db ident with
  | Except.error e => Except.error e
  | Except.ok refs =>
    let act := refs.projects.filter (fun r => r.isActive)
      ++ refs.certifications.filter (fun r => r.isActive)
      ++ refs.education.filter (fun r => r.isActive)
    Except.ok ⟨act.length == 0, act,
      refs.projects.length + refs.certifications.length + refs.education.length⟩

/-- The cascade detach steps of `deleteSkill` (lines 296-331), in source
order: pull the skill id from `Project.skills`; pull the exact,
lowercase and uppercase spellings of the name from
`Project.technologies` (when the name is truthy); pull embedded
certification skills by subdocument `_id`, then by exact name; pull
embedded education objects by subdocument `_id`, then by exact name
(string and ObjectId education elements match neither pull condition). -/
def deleteSkillCascade (db : DB) (sk : Skill) : DB :=
  let db1 := { db with
    projects := db.projects.map (fun (p : Project) =>
      { p with skills := p.skills.filter (fun i => !(i == sk.id)) }) }
  let variants : List String := [sk.name, lowerStr sk.name, upperStr sk.name]
  let db2 :=
    if sk.name == "" then db1
    else { db1 with
      projects := db1.projects.map (fun (p : Project) =>
        { p with technologies :=
            p.technologies.filter (fun t => !(variants.contains t)) }) }
  let db3 := { db2 with
    certifications := db2.certifications.map (fun (c : Certification) =>
      { c with skills := c.skills.filter (fun e => !(e.subId == some sk.id)) }) }
  let db4 := { db3 with
    certifications := db3.certifications.map (fun (c : Certification) =>
      { c with skills := c.skills.filter (fun e => !(e.name == sk.name)) }) }
  let db5 := { db4 with
    education := db4.education.map (fun (ed : Education) =>
      { ed with skills := ed.skills.filter (fun x =>
          match x with
          | EduEntry.obj _ sid => !(sid == some sk.id)
          | _ => true) }) }
  { db5 with
    education := db5.education.map (fun (ed : Education) =>
      { ed with skills := ed.skills.filter (fun x =>
          match x with
          | EduEntry.obj n _ => !(n == sk.name)
          | _ => true) }) }

/-- `deleteSkill(skillId, force)` (lines 282-336): resolve (throwing
`Skill not found`); without force, fail when active references exist,
naming their count; then re-run `getSkillReferences` on the original
identifier (its result is unused but its regexes still run); run the
cascade detach (`deleteSkillCascade`); finally `findByIdAndDelete` the
Skill. -/
def deleteSkill (db : DB) (ident : RIdent) (force : Bool) :
    Except JsErr (DB × Option Skill) :=
  match resolveSkill db ident with
  | Except.error e => Except.error e
  | Except.ok none => Except.error (JsErr.err "Skill not found")
  | Except.ok (some sk) =>
    let gate : Except JsErr Unit :=
      if force then Except.ok ()
      else
        match canDeleteSkill db (RIdent.str sk.id) with
        | Except.error e => Except.error e
        | Except.ok chk =>
          if chk.canDelete then Except.ok ()
          else Except.error (JsErr.err
            ("Cannot delete skill. It is referenced by "
              ++ toString chk.activeReferences.length ++ " active items."))
    match gate with
    | Except.error e => Except.error e
    | Except.ok _ =>
      match getSkillReferences db ident with
      | Except.error e => Except.error e
      | Except.ok _ =>
        let db6 := deleteSkillCascade db sk
        let deleted := findSkillById db6 sk.id
        Except.ok ({ db6 with skills := db6.skills.eraseP (fun t => t.id == sk.id) },
          deleted)

/-- The filter of `removeSkillSource` / `unlinkSkillFromEntity`:
`!(s.type === ty && s.referenceId.toString() === r)`. The `&&`
short-circuits, so an entry of another type never dereferences its
`referenceId`; an entry of the requested type without a `referenceId`
throws a `TypeError`. -/
def filterSourcesNot (ty r : String) : List Source → Except JsErr (List Source)
  | [] => Except.ok []
  | s :: rest =>
    if s.type == ty then
      match s.referenceId with
      | none => Except.error (JsErr.typeErr "Cannot read properties of undefined")
      | some rid =>
        match filterSourcesNot ty r rest with
        | Except.error e => Except.error e
        | Except.ok l => Except.ok (if rid == r then l else s :: l)
    else
      match filterSourcesNot ty r rest with
      | Except.error e => Except.error e
      | Except.ok l => Except.ok (s :: l)

/-- `removeSkillSource(skillId, source, referenceId)` (lines 163-182):
resolve (an unresolved skill is a silent no-op); drop the matching
source entries; when the result is empty the skill is deactivated (the
guard searching the now-empty list for a manual entry never finds one);
save. -/
def removeSkillSource (db : DB) (ident : RIdent) (ty r : String) :
    Except JsErr (DB × Option Skill) :=
  match resolveSkill db ident with
  | Except.error e => Except.error e
  | Except.ok none => Except.ok (db, none)
  | Except.ok (some sk) =>
    match filterSourcesNot ty r sk.sources with
    | Except.error e => Except.error e
    | Except.ok newSrcs =>
      let sk2 := { sk with
        sources := newSrcs
        isActive := if newSrcs.length == 0 then false else sk.isActive }
      Except.ok (saveSkill db sk2, some sk2)

/-- `skill.sources.find(s => s.type === entityType && s.referenceId.toString()
=== entityId.toString())`: the pair comparison of `linkSkillToEntity` and
`unlinkSkillFromEntity`, with the same short-circuit as
`filterSourcesNot`. -/
def findSourceByPair : List Source → String → String → Except JsErr (Option Source)
  | [], _, _ => Except.ok none
  | s :: rest, ty, r =>
    if s.type == ty then
      match s.referenceId with
      | none => Except.error (JsErr.typeErr "Cannot read properties of undefined")
      | some rid =>
        if rid == r then Except.ok (some s) else findSourceByPair rest ty r
    else findSourceByPair rest ty r

/-- The entity document returned by link/unlink. -/
inductive EntityDoc
  | proj (p : Project)
  | cert (c : Certification)
  | edu (e : Education)
  deriving DecidableEq

/-- The `alreadyLinked` comparator (lines 366-370) on one Education
element: strings compare by exact equality to the skill name, objects
with a truthy name case-insensitively; an ObjectId element reaches the
`toString` branch and compares to the skill id; an object with a falsy
name has a `toString` of `[object Object]`, matching no id. -/
def eduAlreadyLinked (sk : Skill) (x : EduEntry) : Bool :=
  match x with
  | EduEntry.str s => s == sk.name
  | EduEntry.obj n _ => if n == "" then false else ciEq n sk.name
  | EduEntry.ref i => i == sk.id

/-- The `alreadyLinked` comparator on one embedded Certification skill:
a truthy name compares case-insensitively; a falsy name falls through to
the subdocument `toString` branch, which never equals a skill id. -/
def certAlreadyLinked (sk : Skill) (e : CertSkill) : Bool :=
  if e.name == "" then false else ciEq e.name sk.name

/-- `linkSkillToEntity(skillId, entityType, entityId)` (lines 339-401):
resolve the skill (throwing `Skill not found`), load the entity by type
(throwing `Invalid entity type` / `<type> not found`); throw the
duplicate-link error when the entity's `skills` field already holds the
skill under the comparator (for a Project that field is the ObjectId
mirror, not `technologies`); attach in the native shape — a Project gets
the name pushed to `technologies` unless already present (exact match),
a Certification or Education gets an embedded object pushed; save the
entity; then append a `(entityType, entityId)` source entry to the skill
unless an entry with that exact pair exists. -/
def linkSkillToEntity (db : DB) (ident : RIdent) (entityType entityId : String) :
    Except JsErr (DB × Skill × EntityDoc) :=
  match resolveSkill db ident with
  | Except.error e => Except.error e
  | Except.ok none => Except.error (JsErr.err "Skill not found")
  | Except.ok (some sk) =>
    let finishSkill := fun (db1 : DB) (ent : EntityDoc) =>
      match findSourceByPair sk.sources entityType entityId with
      | Except.error e => Except.error e
      | Except.ok (some _) => Except.ok (db1, sk, ent)
      | Except.ok none =>
        let sk2 := { sk with sources := sk.sources ++ [⟨entityType, some entityId⟩] }
        Except.ok (saveSkill db1 sk2, sk2, ent)
    if entityType == "project" then
      match findProjectById db entityId with
      | none => Except.error (JsErr.err "project not found")
      | some p =>
        if p.skills.contains sk.id then
          Except.error (JsErr.err "Skill is already linked to this entity")
        else
          let p2 := if p.technologies.contains sk.name then p
            else { p with technologies := p.technologies ++ [sk.name] }
          finishSkill (saveProject db p2) (EntityDoc.proj p2)
    else if entityType == "certification" then
      match findCertById db entityId with
      | none => Except.error (JsErr.err "certification not found")
      | some c =>
        if c.skills.any (certAlreadyLinked sk) then
          Except.error (JsErr.err "Skill is already linked to this entity")
        else
          let c2 := { c with skills := c.skills ++
            [⟨sk.name, if sk.proficiency == "" then "intermediate" else sk.proficiency,
              true, none⟩] }
          finishSkill (saveCert db c2) (EntityDoc.cert c2)
    else if entityType == "education" then
      match findEduById db entityId with
      | none => Except.error (JsErr.err "education not found")
      | some e =>
        if e.skills.any (eduAlreadyLinked sk) then
          Except.error (JsErr.err "Skill is already linked to this entity")
        else
          let e2 := { e with skills := e.skills ++ [EduEntry.obj sk.name none] }
          finishSkill (saveEdu db e2) (EntityDoc.edu e2)
    else Except.error (JsErr.err "Invalid entity type")

/-- The unlink filter on one Education element (lines 632-639): strings
compare case-insensitively to the name; objects with a truthy name
case-insensitively, with a falsy name by their subdocument `_id`; an
ObjectId element has neither a `name` nor an `_id` property and is
always kept. -/
def eduUnlinkKeep (sk : Skill) (x : EduEntry) : Bool :=
  match x with
  | EduEntry.str s => !(lowerStr s == lowerStr sk.name)
  | EduEntry.obj n sid =>
    if n == "" then
      match sid with
      | some i => !(i == sk.id)
      | none => true
    else !(lowerStr n == lowerStr sk.name)
  | EduEntry.ref _ => true

/-- The unlink filter on one embedded Certification skill. -/
def certUnlinkKeep (sk : Skill) (e : CertSkill) : Bool :=
  if e.name == "" then
    match e.subId with
    | some i => !(i == sk.id)
    | none => true
  else !(lowerStr e.name == lowerStr sk.name)

/-- `unlinkSkillFromEntity(skillId, entityType, entityId)` (lines
599-662): resolve and load as in link; detach in the native shape (a
Project filters `technologies` case-insensitively by name); save the
entity; drop the `(entityType, entityId)` source entries; deactivate
when no sources remain; save the skill. -/
def unlinkSkillFromEntity (db : DB) (ident : RIdent) (entityType entityId : String) :
    Except JsErr (DB × Skill × EntityDoc) :=
  match resolveSkill db ident with
  | Except.error e => Except.error e
  | Except.ok none => Except.error (JsErr.err "Skill not found")
  | Except.ok (some sk) =>
    let finishSkill := fun (db1 : DB) (ent : EntityDoc) =>
      match filterSourcesNot entityType entityId sk.sources with
      | Except.error e => Except.error e
      | Except.ok newSrcs =>
        let sk2 := { sk with
          sources := newSrcs
          isActive := if newSrcs.length == 0 then false else sk.isActive }
        Except.ok (saveSkill db1 sk2, sk2, ent)
    if entityType == "project" then
      match findProjectById db entityId with
      | none => Except.error (JsErr.err "project not found")
      | some p =>
        let p2 := { p with technologies :=
          p.technologies.filter (fun t => !(lowerStr t == lowerStr sk.name)) }
        finishSkill (saveProject db p2) (EntityDoc.proj p2)
    else if entityType == "certification" then
      match findCertById db entityId with
      | none => Except.error (JsErr.err "certification not found")
      | some c =>
        let c2 := { c with skills := c.skills.filter (certUnlinkKeep sk) }
        finishSkill (saveCert db c2) (EntityDoc.cert c2)
    else if entityType == "education" then
      match findEduById db entityId with
      | none => Except.error (JsErr.err "education not found")
      | some e =>
        let e2 := { e with skills := e.skills.filter (eduUnlinkKeep sk) }
        finishSkill (saveEdu db e2) (EntityDoc.edu e2)
    else Except.error (JsErr.err "Invalid entity type")

/-- The result of `recalculateSkillVisibility`. -/
structure RecalcRes where
  updated : Bool
  skill : Skill
  deriving DecidableEq

/-- `recalculateSkillVisibility(skillId)` (lines 801-822): resolve (an
unresolved skill is a silent no-op); gather references by the skill id;
`shouldBeActive` is "some referencing entity is active, or some source
entry has type manual"; update, save and report only when the stored
flag disagrees. -/
def recalculateSkillVisibility (db : DB) (ident : RIdent) :
    Except JsErr (DB × Option RecalcRes) :=
  match resolveSkill db ident with
  | Except.error e => Except.error e
  | Except.ok none => Except.ok (db, none)
  | Except.ok (some sk) =>
    match getSkillReferences db (RIdent.str sk.id) with
    | Except.error e => Except.error e
    | Except.ok refs =>
      let hasActive := refs.projects.any (fun x => x.isActive)
        || refs.certifications.any (fun x => x.isActive)
        || refs.education.any (fun x => x.isActive)
      let isManual := sk.sources.any (fun s => s.type == "manual")
      let shouldBe := hasActive || isManual
      if sk.isActive == shouldBe then Except.ok (db, some ⟨false, sk⟩)
      else
        let sk2 := { sk with isActive := shouldBe }
        Except.ok (saveSkill db sk2, some ⟨true, sk2⟩)

/-! Spec-side definitions (following the wording of spec section 4.4),
for stating the visibility and deletion contracts declaratively. -/

/-- Spec-side predicate: some Project, Certification or Education that
references the skill (by id or case-insensitive name) is active. -/
def spec_hasActiveReference (db : DB) (sk : Skill) : Bool :=
  db.projects.any (fun p => projectMatches sk p && p.isActive)
    || db.certifications.any (fun c => certMatches sk c && c.isActive)
    || db.education.any (fun e => eduMatches sk e && e.isActive)

/-- Spec-side rule of section 4.4: a skill should be active iff it has
at least one active referencing entity or a manual source entry. -/
def spec_shouldBeActive (db : DB) (sk : Skill) : Bool :=
  spec_hasActiveReference db sk || sk.sources.any (fun s => s.type == "manual")

/-- Spec-side count of active referencing entities (the count named by
the delete-without-force conflict error). -/
def spec_activeRefCount (db : DB) (sk : Skill) : Nat :=
  (db.projects.filter (fun p => projectMatches sk p && p.isActive)).length
    + (db.certifications.filter (fun c => certMatches sk c && c.isActive)).length
    + (db.education.filter (fun e => eduMatches sk e && e.isActive)).length

/-! Concrete fixtures used by the per-claim counterexample and witness
theorems. Ids are 24-hex-digit strings, like real ObjectIds. -/

/-- C1 fixture: the skill `React`. -/
def c1skill : Skill := ⟨"aaaaaaaaaaaaaaaaaaaaaaaa", "React", "Other", "Beginner", true, []⟩

/-- C1 fixture: an inactive project whose `technologies` stores the
mixed-case spelling `ReAcT` of the skill name. -/
def c1proj : Project := ⟨"bbbbbbbbbbbbbbbbbbbbbbbb", false, [], ["ReAcT"]⟩

/-- C1 fixture store. -/
def c1db : DB := ⟨[c1skill], [c1proj], [], [], 0⟩

/-- C2 fixture: a skill whose only source entry has type `certification`
and referenceId `cccccccccccccccccccccccc`. -/
def c2skill : Skill := ⟨"aaaaaaaaaaaaaaaaaaaaaaaa", "React", "Other", "Beginner", true,
  [⟨"certification", some "cccccccccccccccccccccccc"⟩]⟩

/-- C2 counterexample fixture store. -/
def c2db : DB := ⟨[c2skill], [], [], [], 0⟩

/-- C2 witness fixture: a skill with one project source. -/
def c2wskill : Skill := ⟨"abababababababababababab", "Vue", "Other", "Beginner", true,
  [⟨"project", some "121212121212121212121212"⟩]⟩

/-- C2 witness fixture store. -/
def c2wdb : DB := ⟨[c2wskill], [], [], [], 0⟩

/-- C3 fixture: an empty store (no skill is named `C++` exactly, so the
name lookup reaches the regex construction). -/
def c3db : DB := ⟨[], [], [], [], 0⟩

/-- C4 counterexample fixture: a manually created skill named `C++`
(the admin create route accepts this name and stores
`sources: [{type: 'manual'}]`). -/
def c4skill : Skill := ⟨"dddddddddddddddddddddddd", "C++", "Language", "Beginner", true,
  [⟨"manual", none⟩]⟩

/-- C4 counterexample fixture store: no entity references `C++`. -/
def c4db : DB := ⟨[c4skill], [], [], [], 0⟩

/-- C4 witness fixture: a manually created skill with zero entity
references (its sources entry carries a referenceId, as entity-linked
entries do; the manual flag is what the visibility rule reads). -/
def c4wskill : Skill := ⟨"abcdefabcdefabcdefabcdef", "Rust", "Language", "Beginner", true,
  [⟨"manual", some "999999999999999999999999"⟩]⟩

/-- C4 witness fixture store. -/
def c4wdb : DB := ⟨[c4wskill], [], [], [], 0⟩

/-- C5 counterexample fixture: the same admin-creatable `C++` skill,
with zero references, in its own store. -/
def c5skill : Skill := ⟨"dededededededededededede", "C++", "Language", "Beginner", true,
  [⟨"manual", none⟩]⟩

/-- C5 counterexample fixture store. -/
def c5db : DB := ⟨[c5skill], [], [], [], 0⟩

/-- C5 witness fixture: a skill referenced by one active project. -/
def c5wskill : Skill := ⟨"acacacacacacacacacacacac", "Django", "Framework / Library",
  "Beginner", true, [⟨"project", some "434343434343434343434343"⟩]⟩

/-- C5 witness fixture: the active project referencing the skill by id. -/
def c5wproj : Project := ⟨"434343434343434343434343", true, ["acacacacacacacacacacacac"], []⟩

/-- C5 witness fixture store. -/
def c5wdb : DB := ⟨[c5wskill], [c5wproj], [], [], 0⟩

/-- C6 fixture: skill `React` with no sources. -/
def c6skill : Skill := ⟨"aaaaaaaaaaaaaaaaaaaaaaaa", "React", "Other", "Beginner", true, []⟩

/-- C6 fixture: a project whose `technologies` already contains the
skill name while its `skills` id mirror is empty. -/
def c6proj : Project := ⟨"bbbbbbbbbbbbbbbbbbbbbbbb", true, [], ["React"]⟩

/-- C6 counterexample fixture store. -/
def c6db : DB := ⟨[c6skill], [c6proj], [], [], 0⟩

/-- C6 witness fixture: a project whose `skills` id mirror already
contains the skill id. -/
def c6wproj : Project := ⟨"bdbdbdbdbdbdbdbdbdbdbdbd", true, ["aaaaaaaaaaaaaaaaaaaaaaaa"], ["React"]⟩

/-- C6 witness fixture store. -/
def c6wdb : DB := ⟨[c6skill], [c6wproj], [], [], 0⟩

/-- C7 counterexample fixture: an empty store; the first
`syncSkills(['C++'], 'project', P)` call already rejects. -/
def c7db : DB := ⟨[], [], [], [], 0⟩

/-- C8 witness fixture: an empty store. -/
def c8wdb : DB := ⟨[], [], [], [], 0⟩

/-- C9 fixture: a store holding one skill, whose id the object
identifier of the counterexample also carries. -/
def c9db : DB := ⟨[⟨"eeeeeeeeeeeeeeeeeeeeeeee", "React", "Other", "Beginner", true, []⟩],
  [], [], [], 0⟩

/-- C10 fixture: a manually created skill in the exact shape the admin
create route stores: `sources: [{type: 'manual'}]`, no referenceId. -/
def c10skill : Skill := ⟨"ffffffffffffffffffffffff", "React", "Other", "Beginner", true,
  [⟨"manual", none⟩]⟩

/-- C10 fixture: a project, so the witness can exercise
`unlinkSkillFromEntity`. -/
def c10proj : Project := ⟨"cdcdcdcdcdcdcdcdcdcdcdcd", true, [], ["React"]⟩

/-- C10 fixture store. -/
def c10db : DB := ⟨[c10skill], [c10proj], [], [], 0⟩

/-! Helper lemmas. -/

theorem safeChar_regexStep (c : Char) (st : RState) (h : safeChar c = true) :
    regexStep st c = some RState.atom := by
  have hp : (c == '+') = false := by
    cases h2 : c == '+' with
    | false => rfl
    | true => exact absurd (beq_iff_eq.mp h2 ▸ h) (by decide)
  have hs : (c == '*') = false := by
    cases h2 : c == '*' with
    | false => rfl
    | true => exact absurd (beq_iff_eq.mp h2 ▸ h) (by decide)
  have hq : (c == '?') = false := by
    cases h2 : c == '?' with
    | false => rfl
    | true => exact absurd (beq_iff_eq.mp h2 ▸ h) (by decide)
  have hc : (c == '^') = false := by
    cases h2 : c == '^' with
    | false => rfl
    | true => exact absurd (beq_iff_eq.mp h2 ▸ h) (by decide)
  have hd : (c == '$') = false := by
    cases h2 : c == '$' with
    | false => rfl
    | true => exact absurd (beq_iff_eq.mp h2 ▸ h) (by decide)
  unfold regexStep
  rw [hp, hs, hq, hc, hd]
  rfl

theorem regexValidFrom_safe_dollar (l : List Char) (h : l.all safeChar = true) :
    ∀ st : RState, regexValidFrom st (l ++ ['$']) = true := by
  induction l with
  | nil => intro st; rfl
  | cons c cs ih =>
    intro st
    have hc : safeChar c = true := by
      have := (List.all_cons ..).symm ▸ h
      exact (Bool.and_eq_true ..).mp this |>.1
    have hcs : cs.all safeChar = true := by
      have := (List.all_cons ..).symm ▸ h
      exact (Bool.and_eq_true ..).mp this |>.2
    show regexValidFrom st (c :: (cs ++ ['$'])) = true
    simp only [regexValidFrom, safeChar_regexStep c st hc]
    exact ih hcs RState.atom

theorem regexSafe_anchoredValid (n : String) (h : regexSafe n = true) :
    anchoredRegexValid n = true := by
  show regexValidFrom RState.start (('^' :: n.data) ++ ['$']) = true
  have : ('^' :: n.data) ++ ['$'] = '^' :: (n.data ++ ['$']) := rfl
  rw [this]
  show regexValidFrom RState.start (n.data ++ ['$']) = true
  exact regexValidFrom_safe_dollar n.data h RState.start

theorem find?_none_of_all {α : Type} (p : α → Bool) (l : List α)
    (h : ∀ a ∈ l, p a = false) : l.find? p = none :=
  List.find?_eq_none.mpr (fun a ha => by simp [h a ha])

theorem find?_append_left_none {α : Type} (p : α → Bool) (l1 l2 : List α)
    (h : l1.find? p = none) : (l1 ++ l2).find? p = l2.find? p := by
  rw [List.find?_append, h]
  rfl

theorem map_replace_fresh (l : List Skill) (sk : Skill) (i : String)
    (h : ∀ s ∈ l, s.id ≠ i) :
    l.map (fun t => if t.id == i then sk else t) = l := by
  induction l with
  | nil => rfl
  | cons a as ih =>
    have ha : (a.id == i) = false :=
      beq_eq_false_iff_ne.mpr (h a (by simp))
    simp only [List.map_cons, ha, if_false, Bool.false_eq_true, ite_false]
    rw [ih (fun s hs => h s (by simp [hs]))]

theorem findSkillById_id (db : DB) (sid : String) (sk : Skill)
    (h : findSkillById db sid = some sk) : sk.id = sid := by
  have h2 : db.skills.find? (fun s => s.id == sid) = some sk := h
  have h3 : (sk.id == sid) = true := by
    have h4 := List.find?_some h2
    simpa using h4
  exact beq_iff_eq.mp h3

theorem any_filter_map {α β : Type} (l : List α) (P : α → Bool) (f : α → β)
    (q : β → Bool) :
    ((l.filter P).map f).any q = l.any (fun a => P a && q (f a)) := by
  induction l with
  | nil => rfl
  | cons a as ih =>
    cases h : P a with
    | true => simp [List.filter_cons, h, ih]
    | false => simp [List.filter_cons, h, ih]

theorem length_filter_filter_map {α β : Type} (l : List α) (P : α → Bool)
    (f : α → β) (q : β → Bool) :
    (((l.filter P).map f).filter q).length
      = (l.filter (fun a => P a && q (f a))).length := by
  induction l with
  | nil => rfl
  | cons a as ih =>
    cases h : P a with
    | true =>
      cases h2 : q (f a) with
      | true => simp [List.filter_cons, h, h2, ih]
      | false => simp [List.filter_cons, h, h2, ih]
    | false => simp [List.filter_cons, h, ih]

theorem hex24_ne_empty (sid : String) (h : isHex24 sid = true) :
    (sid == "") = false := by
  cases h2 : sid == "" with
  | false => rfl
  | true =>
    have h3 : sid = "" := beq_iff_eq.mp h2
    rw [h3] at h
    exact absurd h (by decide)

theorem resolve_str_found (db : DB) (sid : String) (sk : Skill)
    (hhex : isHex24 sid = true) (hfind : findSkillById db sid = some sk) :
    resolveSkill db (RIdent.str sid) = Except.ok (some sk) := by
  simp [resolveSkill, hex24_ne_empty sid hhex, hhex, hfind]

theorem ciEq_self (n : String) : ciEq n n = true := by
  unfold ciEq
  exact beq_self_eq_true _

theorem exactName_none_of_no_ci (db : DB) (n : String)
    (hci : ∀ s ∈ db.skills, ciEq n s.name = false) :
    findSkillByExactName db n = none := by
  apply find?_none_of_all
  intro s hs
  show (s.name == n) = false
  cases h2 : s.name == n with
  | false => rfl
  | true =>
    have h3 : s.name = n := beq_iff_eq.mp h2
    have h4 := hci s hs
    rw [h3] at h4
    rw [ciEq_self n] at h4
    exact h4

theorem ciName_none_of_no_ci (db : DB) (n : String)
    (hci : ∀ s ∈ db.skills, ciEq n s.name = false) :
    findSkillByNameCI db n = none := by
  apply find?_none_of_all
  intro s hs
  show ciEq n s.name = false
  exact hci s hs

theorem normalize_str_singleton (db : DB) (raw n : String)
    (hclean : cleanSkillName raw = n) (hne : n ≠ "")
    (hhex : isHex24 n = false) :
    normalizeSkillNames db [SIdent.str raw] = [n] := by
  have hraw : (raw == "") = false := by
    cases h2 : raw == "" with
    | false => rfl
    | true =>
      have h3 : raw = "" := beq_iff_eq.mp h2
      rw [h3] at hclean
      have h4 : n = "" := by
        rw [← hclean]
        decide
      exact absurd h4 hne
  have hne2 : (n == "") = false := beq_eq_false_iff_ne.mpr hne
  simp [normalizeSkillNames, normStep, hraw, hclean, hne2, hhex]

theorem syncGo_singleton (ty r : String) (db : DB) (n : String) :
    syncGo ty r db [n] =
      match syncOne ty r db n with
      | Except.error e => Except.error e
      | Except.ok (db2, some sk) => Except.ok (db2, [sk])
      | Except.ok (db2, none) => Except.ok (db2, []) := by
  unfold syncGo
  cases h : syncOne ty r db n with
  | error e => rfl
  | ok p =>
    obtain ⟨db2, osk⟩ := p
    cases osk <;> simp [syncGo]

theorem syncOne_exact_found (ty r : String) (db : DB) (n : String) (sk : Skill)
    (hfind : findSkillByExactName db n = some sk) :
    syncOne ty r db n =
      match findSourceByRefId sk.sources r with
      | Except.error e => Except.error e
      | Except.ok (some _) => Except.ok (saveSkill db sk, some sk)
      | Except.ok none =>
        Except.ok (saveSkill db { sk with sources := sk.sources ++ [⟨ty, some r⟩] },
          some { sk with sources := sk.sources ++ [⟨ty, some r⟩] }) := by
  unfold syncOne
  rw [hfind]

theorem syncOne_fresh_create (ty r : String) (db : DB) (n : String)
    (hsafe : regexSafe n = true)
    (hci : ∀ s ∈ db.skills, ciEq n s.name = false)
    (hidem : cleanSkillName n = n) (hne : n ≠ "") :
    syncOne ty r db n =
      Except.ok ({ db with
        skills := db.skills ++ [⟨genId db.nextId, n, getCategoryForSkillName n,
          "Beginner", true, [⟨ty, some r⟩]⟩]
        nextId := db.nextId + 1 },
        some ⟨genId db.nextId, n, getCategoryForSkillName n,
          "Beginner", true, [⟨ty, some r⟩]⟩) := by
  have hne2 : (n == "") = false := beq_eq_false_iff_ne.mpr hne
  simp [syncOne, exactName_none_of_no_ci db n hci, regexSafe_anchoredValid n hsafe,
    ciName_none_of_no_ci db n hci, hidem, hne2]

theorem getRefs_found (db : DB) (sid : String) (sk : Skill)
    (hhex : isHex24 sid = true) (hfind : findSkillById db sid = some sk)
    (hsafe : regexSafe sk.name = true) :
    getSkillReferences db (RIdent.str sid) = Except.ok
      ⟨(db.projects.filter (projectMatches sk)).map (fun p => ⟨p.id, p.isActive⟩),
       (db.certifications.filter (certMatches sk)).map (fun c => ⟨c.id, c.isActive⟩),
       (db.education.filter (eduMatches sk)).map (fun e => ⟨e.id, e.isActive⟩)⟩ := by
  simp [getSkillReferences, resolve_str_found db sid sk hhex hfind,
    regexSafe_anchoredValid sk.name hsafe]

theorem canDelete_found (db : DB) (sid : String) (sk : Skill)
    (hhex : isHex24 sid = true) (hfind : findSkillById db sid = some sk)
    (hsafe : regexSafe sk.name = true) :
    ∃ act : List Ref,
      canDeleteSkill db (RIdent.str sid) = Except.ok
        ⟨act.length == 0, act,
          ((db.projects.filter (projectMatches sk)).map
              (fun p => (⟨p.id, p.isActive⟩ : Ref))).length
            + ((db.certifications.filter (certMatches sk)).map
              (fun c => (⟨c.id, c.isActive⟩ : Ref))).length
            + ((db.education.filter (eduMatches sk)).map
              (fun e => (⟨e.id, e.isActive⟩ : Ref))).length⟩
      ∧ act.length = spec_activeRefCount db sk := by
  refine ⟨((db.projects.filter (projectMatches sk)).map
        (fun p => (⟨p.id, p.isActive⟩ : Ref))).filter (fun x => x.isActive)
      ++ ((db.certifications.filter (certMatches sk)).map
        (fun c => (⟨c.id, c.isActive⟩ : Ref))).filter (fun x => x.isActive)
      ++ ((db.education.filter (eduMatches sk)).map
        (fun e => (⟨e.id, e.isActive⟩ : Ref))).filter (fun x => x.isActive), ?_, ?_⟩
  · simp only [canDeleteSkill, getRefs_found db sid sk hhex hfind hsafe]
  · rw [List.length_append, List.length_append]
    unfold spec_activeRefCount
    rw [length_filter_filter_map, length_filter_filter_map, length_filter_filter_map]

/-- Claim C4 (amended: restricted to skills whose name is free of regex
metacharacters; the counterexample below shows the restriction is needed):
`recalculateSkillVisibility(skillId)` computes should-be-active as "at
least one active referencing entity exists, or the skill has a manual
source"; when this differs from the stored `isActive` it updates the
flag, persists and reports `updated: true`, otherwise it changes nothing
and reports `updated: false`. -/
theorem c4_recalculateSkillVisibility_correct (db : DB) (sid : String) (sk : Skill)
    (hhex : isHex24 sid = true) (hfind : findSkillById db sid = some sk)
    (hsafe : regexSafe sk.name = true) :
    recalculateSkillVisibility db (RIdent.str sid) =
      (if sk.isActive == spec_shouldBeActive db sk then
        Except.ok (db, some ⟨false, sk⟩)
      else
        Except.ok (saveSkill db { sk with isActive := spec_shouldBeActive db sk },
          some ⟨true, { sk with isActive := spec_shouldBeActive db sk }⟩)) := by
  have hid : sk.id = sid := findSkillById_id db sid sk hfind
  simp only [recalculateSkillVisibility, resolve_str_found db sid sk hhex hfind,
    hid, getRefs_found db sid sk hhex hfind hsafe]
  rw [any_filter_map, any_filter_map, any_filter_map]
  simp [spec_shouldBeActive, spec_hasActiveReference]

/-- Claim C4, counterexample to the unrestricted statement: on the
admin-creatable skill named `C++` (zero references, manual source) the
claim demands the call to report a no-op (`updated: false`); instead the
reference queries build `new RegExp("^C++$", "i")`, which throws a
`SyntaxError`, so the call rejects. -/
theorem c4_counterexample_regex_name :
    recalculateSkillVisibility c4db (RIdent.str "dddddddddddddddddddddddd") =
      Except.error (JsErr.synErr "Invalid regular expression: C++") := by
  decide

/-- Claim C4 witness: a manually created skill with zero entity
references; the hypotheses hold and the theorem applies. -/
theorem c4_witness :
    (isHex24 "abcdefabcdefabcdefabcdef" = true)
    ∧ (findSkillById c4wdb "abcdefabcdefabcdefabcdef" = some c4wskill)
    ∧ (regexSafe c4wskill.name = true)
    ∧ (recalculateSkillVisibility c4wdb (RIdent.str "abcdefabcdefabcdefabcdef") =
      (if c4wskill.isActive == spec_shouldBeActive c4wdb c4wskill then
        Except.ok (c4wdb, some ⟨false, c4wskill⟩)
      else
        Except.ok (saveSkill c4wdb
            { c4wskill with isActive := spec_shouldBeActive c4wdb c4wskill },
          some ⟨true, { c4wskill with
            isActive := spec_shouldBeActive c4wdb c4wskill }⟩))) :=
  ⟨by decide, by decide, by decide,
    c4_recalculateSkillVisibility_correct c4wdb "abcdefabcdefabcdefabcdef" c4wskill
      (by decide) (by decide) (by decide)⟩

/-- Claim C5 (amended: restricted to skills whose name is free of regex
metacharacters; the counterexample below shows the restriction is
needed): `deleteSkill(S.id)` without force rejects with a conflict error
naming the count of active referencing entities whenever at least one
exists, and succeeds — removing the Skill record — when every
referencing entity is inactive. -/
theorem c5_deleteSkill_noforce_contract (db : DB) (sid : String) (sk : Skill)
    (hhex : isHex24 sid = true) (hfind : findSkillById db sid = some sk)
    (hsafe : regexSafe sk.name = true) :
    (0 < spec_activeRefCount db sk →
      deleteSkill db (RIdent.str sid) false = Except.error (JsErr.err
        ("Cannot delete skill. It is referenced by "
          ++ toString (spec_activeRefCount db sk) ++ " active items."))) ∧
    (spec_activeRefCount db sk = 0 →
      deleteSkill db (RIdent.str sid) false =
        Except.ok ({ deleteSkillCascade db sk with
          skills := db.skills.eraseP (fun t => t.id == sk.id) }, some sk)) := by
  have hid : sk.id = sid := findSkillById_id db sid sk hfind
  obtain ⟨act, hcan, hlen⟩ := canDelete_found db sid sk hhex hfind hsafe
  have hfind2 : db.skills.find? (fun s => s.id == sid) = some sk := hfind
  have hsk : (deleteSkillCascade db sk).skills = db.skills := by
    simp only [deleteSkillCascade]
    cases h2 : sk.name == "" <;> simp [h2]
  have hdel : findSkillById (deleteSkillCascade db sk) sid = some sk := by
    show (deleteSkillCascade db sk).skills.find? (fun s => s.id == sid) = some sk
    rw [hsk]
    exact hfind2
  constructor
  · intro hpos
    have hne0 : (act.length == 0) = false := by
      apply beq_eq_false_iff_ne.mpr
      omega
    simp only [deleteSkill, resolve_str_found db sid sk hhex hfind, hid, hcan, hne0]
    simp [hlen]
  · intro h0
    have he0 : (act.length == 0) = true := by
      apply beq_iff_eq.mpr
      omega
    simp only [deleteSkill, resolve_str_found db sid sk hhex hfind, hid, hcan, he0,
      getRefs_found db sid sk hhex hfind hsafe, hdel]
    simp [hsk]

/-- Claim C5, counterexample to the unrestricted statement: the
admin-creatable skill named `C++` has zero references, so the claim
demands `deleteSkill` without force to succeed; instead the reference
queries inside `canDeleteSkill` build `new RegExp("^C++$", "i")`, which
throws a `SyntaxError`. -/
theorem c5_counterexample_regex_name :
    deleteSkill c5db (RIdent.str "dededededededededededede") false =
      Except.error (JsErr.synErr "Invalid regular expression: C++") := by
  decide

/-- Claim C5 witness: a skill referenced by one active project; the
hypotheses hold and the theorem applies. -/
theorem c5_witness :
    (isHex24 "acacacacacacacacacacacac" = true)
    ∧ (findSkillById c5wdb "acacacacacacacacacacacac" = some c5wskill)
    ∧ (regexSafe c5wskill.name = true)
    ∧ ((0 < spec_activeRefCount c5wdb c5wskill →
        deleteSkill c5wdb (RIdent.str "acacacacacacacacacacacac") false =
          Except.error (JsErr.err ("Cannot delete skill. It is referenced by "
            ++ toString (spec_activeRefCount c5wdb c5wskill) ++ " active items."))) ∧
      (spec_activeRefCount c5wdb c5wskill = 0 →
        deleteSkill c5wdb (RIdent.str "acacacacacacacacacacacac") false =
          Except.ok ({ deleteSkillCascade c5wdb c5wskill with
            skills := c5wdb.skills.eraseP (fun t => t.id == c5wskill.id) },
            some c5wskill))) :=
  ⟨by decide, by decide, by decide,
    c5_deleteSkill_noforce_contract c5wdb "acacacacacacacacacacacac" c5wskill
      (by decide) (by decide) (by decide)⟩

/-- Claim C1 (code bug): `deleteSkill(S.id, force=true)` on the skill
`React` deletes the Skill record, but a Project whose `technologies`
stores the mixed-case spelling `ReAcT` keeps that entry — the pull only
covers the exact, all-lowercase and all-uppercase spellings — although
`getSkillReferences` itself counts the same entry as a reference to S
via its case-insensitive match. The claim (and the spec) demand that no
case-insensitive name reference survives. -/
theorem c1_deleteSkill_force_leaves_mixed_case_technology :
    deleteSkill c1db (RIdent.str "aaaaaaaaaaaaaaaaaaaaaaaa") true =
      Except.ok (⟨[], [c1proj], [], [], 0⟩, some c1skill)
    ∧ getSkillReferences c1db (RIdent.str "aaaaaaaaaaaaaaaaaaaaaaaa") =
      Except.ok ⟨[⟨"bbbbbbbbbbbbbbbbbbbbbbbb", false⟩], [], []⟩
    ∧ c1proj.technologies = ["ReAcT"] :=
  ⟨by decide, by decide, rfl⟩

/-- Claim C3 (code bug): an identifier whose cleaned name contains regex
metacharacters, here `C++` with no exactly-named stored skill, reaches
the lookup `new RegExp("^C++$", "i")` outside the normalization
try/catch; the constructor throws a `SyntaxError` and the whole
`syncSkills` call rejects, instead of skipping the entry. -/
theorem c3_syncSkills_rejects_on_regex_metacharacters :
    syncSkills c3db [SIdent.str "C++"] "project" "cccccccccccccccccccccccc" =
      Except.error (JsErr.synErr "Invalid regular expression: C++") := by
  decide

/-- Claim C2, counterexample: the skill already carries a source entry
with the same referenceId but type `certification`; the claim demands
that `syncSkills(..., 'project', thatId)` still append a
`(project, thatId)` entry, but the store round-trips unchanged — the
dedup check compares `referenceId` alone. -/
theorem c2_counterexample_same_refid_other_type_not_appended :
    syncSkills c2db [SIdent.str "React"] "project" "cccccccccccccccccccccccc" =
      Except.ok (c2db, [c2skill]) := by
  decide

/-- Claim C2 (amended): for a `syncSkills` call that resolves its
identifier to an existing skill by exact name, a new sources entry is
appended iff no existing entry carries the same `referenceId` — the
entry type is ignored by the comparison, so an entry with the same
referenceId and a different type suppresses the append; consequently
`syncSkills` never creates two entries with the same referenceId, and in
particular none with the same `(type, referenceId)` pair. -/
theorem c2_syncSkills_source_dedup_by_referenceId_only
    (db : DB) (raw n ty r : String) (sk : Skill)
    (hclean : cleanSkillName raw = n) (hne : n ≠ "")
    (hhex : isHex24 n = false)
    (hfind : findSkillByExactName db n = some sk) :
    (∀ src, findSourceByRefId sk.sources r = Except.ok (some src) →
      syncSkills db [SIdent.str raw] ty r = Except.ok (saveSkill db sk, [sk])) ∧
    (findSourceByRefId sk.sources r = Except.ok none →
      syncSkills db [SIdent.str raw] ty r =
        Except.ok (saveSkill db { sk with sources := sk.sources ++ [⟨ty, some r⟩] },
          [{ sk with sources := sk.sources ++ [⟨ty, some r⟩] }])) := by
  have hnorm := normalize_str_singleton db raw n hclean hne hhex
  have hone := syncOne_exact_found ty r db n sk hfind
  constructor
  · intro src hsrc
    simp only [syncSkills, hnorm, syncGo_singleton, hone, hsrc]
  · intro hsrc
    simp only [syncSkills, hnorm, syncGo_singleton, hone, hsrc]

/-- Claim C2 witness: a skill with one `(project, r1)` source entry,
synced again for a distinct referenceId; the hypotheses hold and the
theorem applies. -/
theorem c2_witness :
    (cleanSkillName "Vue" = "Vue") ∧ ("Vue" ≠ "") ∧ (isHex24 "Vue" = false)
    ∧ (findSkillByExactName c2wdb "Vue" = some c2wskill)
    ∧ ((∀ src, findSourceByRefId c2wskill.sources "565656565656565656565656"
          = Except.ok (some src) →
        syncSkills c2wdb [SIdent.str "Vue"] "certification" "565656565656565656565656"
          = Except.ok (saveSkill c2wdb c2wskill, [c2wskill])) ∧
      (findSourceByRefId c2wskill.sources "565656565656565656565656" = Except.ok none →
        syncSkills c2wdb [SIdent.str "Vue"] "certification" "565656565656565656565656"
          = Except.ok (saveSkill c2wdb { c2wskill with sources := c2wskill.sources
              ++ [⟨"certification", some "565656565656565656565656"⟩] },
            [{ c2wskill with sources := c2wskill.sources
              ++ [⟨"certification", some "565656565656565656565656"⟩] }]))) :=
  ⟨by decide, by decide, by decide, by decide,
    c2_syncSkills_source_dedup_by_referenceId_only c2wdb "Vue" "Vue" "certification"
      "565656565656565656565656" c2wskill (by decide) (by decide) (by decide) (by decide)⟩

/-- Claim C6, counterexample: the project stores the skill name `React`
only in `technologies` (its native name shape); the claim demands a
duplicate-link conflict, but `linkSkillToEntity` completes — the
duplicate check inspects the `skills` id mirror, which is empty — and
merely skips the duplicate `technologies` push while recording a source
entry. -/
theorem c6_counterexample_technologies_only_link_accepted :
    linkSkillToEntity c6db (RIdent.str "aaaaaaaaaaaaaaaaaaaaaaaa") "project"
        "bbbbbbbbbbbbbbbbbbbbbbbb" =
      Except.ok (⟨[{ c6skill with
          sources := [⟨"project", some "bbbbbbbbbbbbbbbbbbbbbbbb"⟩] }],
        [c6proj], [], [], 0⟩,
        { c6skill with sources := [⟨"project", some "bbbbbbbbbbbbbbbbbbbbbbbb"⟩] },
        EntityDoc.proj c6proj) := by
  decide

/-- Claim C6 (amended): the duplicate-link conflict of
`linkSkillToEntity` on a Project fires iff the project's `skills` id
mirror contains the skill id; a skill name stored only in
`technologies` is not treated as already linked — the call completes and
leaves `technologies` unchanged (the push is skipped because the name is
already present), rather than rejecting. -/
theorem c6_link_duplicate_check_on_skills_field (db : DB) (sid : RIdent)
    (eid : String) (sk : Skill) (p : Project)
    (hres : resolveSkill db sid = Except.ok (some sk))
    (hproj : findProjectById db eid = some p) :
    (p.skills.contains sk.id = true →
      linkSkillToEntity db sid "project" eid =
        Except.error (JsErr.err "Skill is already linked to this entity")) ∧
    (p.skills.contains sk.id = false →
      p.technologies.contains sk.name = true →
      (∃ o, findSourceByPair sk.sources "project" eid = Except.ok o) →
      ∃ db2 sk2, linkSkillToEntity db sid "project" eid =
          Except.ok (db2, sk2, EntityDoc.proj p) ∧
        db2.projects = db.projects.map (fun q => if q.id == p.id then p else q)) := by
  constructor
  · intro hin
    simp at hin
    simp [linkSkillToEntity, hres, hproj, hin]
  · intro hnin htech hok
    obtain ⟨o, hsp⟩ := hok
    simp at hnin htech
    cases o with
    | some src =>
      refine ⟨saveProject db p, sk, ?_, ?_⟩
      · simp [linkSkillToEntity, hres, hproj, hnin, htech, hsp]
      · rfl
    | none =>
      refine ⟨saveSkill (saveProject db p)
          { sk with sources := sk.sources ++ [⟨"project", some eid⟩] },
        { sk with sources := sk.sources ++ [⟨"project", some eid⟩] }, ?_, ?_⟩
      · simp [linkSkillToEntity, hres, hproj, hnin, htech, hsp]
      · rfl

/-- Claim C6 witness: a project whose `skills` mirror already carries
the skill id; the hypotheses hold and the theorem applies. -/
theorem c6_witness :
    (resolveSkill c6wdb (RIdent.str "aaaaaaaaaaaaaaaaaaaaaaaa") = Except.ok (some c6skill))
    ∧ (findProjectById c6wdb "bdbdbdbdbdbdbdbdbdbdbdbd" = some c6wproj)
    ∧ ((c6wproj.skills.contains c6skill.id = true →
        linkSkillToEntity c6wdb (RIdent.str "aaaaaaaaaaaaaaaaaaaaaaaa") "project"
            "bdbdbdbdbdbdbdbdbdbdbdbd" =
          Except.error (JsErr.err "Skill is already linked to this entity")) ∧
      (c6wproj.skills.contains c6skill.id = false →
        c6wproj.technologies.contains c6skill.name = true →
        (∃ o, findSourceByPair c6skill.sources "project" "bdbdbdbdbdbdbdbdbdbdbdbd"
          = Except.ok o) →
        ∃ db2 sk2, linkSkillToEntity c6wdb (RIdent.str "aaaaaaaaaaaaaaaaaaaaaaaa")
            "project" "bdbdbdbdbdbdbdbdbdbdbdbd" =
            Except.ok (db2, sk2, EntityDoc.proj c6wproj) ∧
          db2.projects = c6wdb.projects.map
            (fun q => if q.id == c6wproj.id then c6wproj else q))) :=
  ⟨by decide, by decide,
    c6_link_duplicate_check_on_skills_field c6wdb
      (RIdent.str "aaaaaaaaaaaaaaaaaaaaaaaa") "bdbdbdbdbdbdbdbdbdbdbdbd" c6skill
      c6wproj (by decide) (by decide)⟩

/-- Claim C9, counterexample: the identifier object carries the name
`Ghost`, which matches no stored skill, and the id of the stored skill
`React`; the claim demands a fallback to the id lookup, but the resolver
returns the failed name lookup directly: null. -/
theorem c9_counterexample_no_id_fallback :
    resolveSkill c9db (RIdent.objNamed "Ghost" (some "eeeeeeeeeeeeeeeeeeeeeeee")) =
      Except.ok none := by
  decide

/-- Claim C9 (amended): for an object identifier with a truthy `name`,
the resolver returns the case-insensitive lookup on the trimmed name
directly — found or null — and any id carried on the object is ignored
unconditionally; there is no id fallback when the name lookup fails. -/
theorem c9_resolve_object_name_ignores_id (db : DB) (n : String)
    (oid : Option String) (hsafe : regexSafe (trimStr n) = true) :
    resolveSkill db (RIdent.objNamed n oid) =
      Except.ok (findSkillByNameCI db (trimStr n))
    ∧ resolveSkill db (RIdent.objNamed n oid) =
      resolveSkill db (RIdent.objNamed n none) := by
  constructor
  · simp [resolveSkill, lookupByNameCI, regexSafe_anchoredValid (trimStr n) hsafe]
  · rfl

/-- Claim C9 witness: the hypotheses hold for the name `Ghost` and the
theorem applies. -/
theorem c9_witness :
    (regexSafe (trimStr "Ghost") = true)
    ∧ (resolveSkill c9db (RIdent.objNamed "Ghost" (some "eeeeeeeeeeeeeeeeeeeeeeee")) =
        Except.ok (findSkillByNameCI c9db (trimStr "Ghost"))
      ∧ resolveSkill c9db (RIdent.objNamed "Ghost" (some "eeeeeeeeeeeeeeeeeeeeeeee")) =
        resolveSkill c9db (RIdent.objNamed "Ghost" none)) :=
  ⟨by decide,
    c9_resolve_object_name_ignores_id c9db "Ghost" (some "eeeeeeeeeeeeeeeeeeeeeeee")
      (by decide)⟩

/-- Claim C10, counterexample: on the admin-created shape
`sources: [{type: 'manual'}]` the claim demands `removeSkillSource` to
throw a `TypeError`; instead the call completes normally — the filter
compares `s.type === sourceType` first, and the `&&` short-circuit never
dereferences the absent `referenceId` for a sourceType other than
`manual`. -/
theorem c10_counterexample_removeSkillSource_completes :
    removeSkillSource c10db (RIdent.str "ffffffffffffffffffffffff") "project"
        "cccccccccccccccccccccccc" =
      Except.ok (c10db, some c10skill) := by
  decide

/-- Claim C10 (amended): for a skill stored with
`sources: [{type: 'manual'}]` (no referenceId), only `syncSkills` hits
the unguarded `s.referenceId.toString()` and throws a `TypeError` when
it resolves that existing skill; `removeSkillSource` with a sourceType
other than `manual`, and `unlinkSkillFromEntity` (whose entity types are
project/certification/education only), compare the entry type first and
complete normally. -/
theorem c10_missing_referenceId_typeerror_scope (db : DB) (sid : String) (sk : Skill)
    (hhex : isHex24 sid = true) (hfind : findSkillById db sid = some sk)
    (hsrc : sk.sources = [⟨"manual", none⟩]) :
    (∀ raw n ty r, cleanSkillName raw = n → n ≠ "" → isHex24 n = false →
      findSkillByExactName db n = some sk →
      syncSkills db [SIdent.str raw] ty r =
        Except.error (JsErr.typeErr "Cannot read properties of undefined")) ∧
    (∀ ty r, ty ≠ "manual" →
      removeSkillSource db (RIdent.str sid) ty r =
        Except.ok (saveSkill db sk, some sk)) ∧
    (∀ ep p, findProjectById db ep = some p →
      ∃ out, unlinkSkillFromEntity db (RIdent.str sid) "project" ep =
        Except.ok out) := by
  refine ⟨?_, ?_, ?_⟩
  · intro raw n ty r hclean hne hhex2 hfexact
    have hnorm := normalize_str_singleton db raw n hclean hne hhex2
    have hone := syncOne_exact_found ty r db n sk hfexact
    have herr : findSourceByRefId sk.sources r =
        Except.error (JsErr.typeErr "Cannot read properties of undefined") := by
      rw [hsrc]
      rfl
    simp only [syncSkills, hnorm, syncGo_singleton, hone, herr]
  · intro ty r hty
    have hmanual : ("manual" == ty) = false :=
      beq_eq_false_iff_ne.mpr (fun h => hty h.symm)
    have hfil : filterSourcesNot ty r sk.sources = Except.ok [⟨"manual", none⟩] := by
      rw [hsrc]
      simp [filterSourcesNot, hmanual]
    simp only [removeSkillSource, resolve_str_found db sid sk hhex hfind, hfil]
    simp [← hsrc]
    have hact : (!decide (sk.sources = []) && sk.isActive) = sk.isActive := by
      rw [hsrc]
      simp
    rw [hact]
    exact ⟨rfl, rfl⟩
  · intro ep p hp
    refine ⟨(saveSkill (saveProject db { p with technologies := p.technologies.filter (fun t => !(lowerStr t == lowerStr sk.name)) }) sk, sk, EntityDoc.proj { p with technologies := p.technologies.filter (fun t => !(lowerStr t == lowerStr sk.name)) }), ?_⟩
    have hfil : filterSourcesNot "project" ep sk.sources =
        Except.ok [⟨"manual", none⟩] := by
      rw [hsrc]
      rfl
    simp only [unlinkSkillFromEntity, resolve_str_found db sid sk hhex hfind, hp, hfil]
    simp [← hsrc]
    have hact : (!decide (sk.sources = []) && sk.isActive) = sk.isActive := by
      rw [hsrc]
      simp
    rw [hact]
    exact ⟨rfl, rfl⟩

/-- Claim C10 witness: the admin-created skill shape; the hypotheses
hold and the theorem applies. -/
theorem c10_witness :
    (isHex24 "ffffffffffffffffffffffff" = true)
    ∧ (findSkillById c10db "ffffffffffffffffffffffff" = some c10skill)
    ∧ (c10skill.sources = [⟨"manual", none⟩])
    ∧ ((∀ raw n ty r, cleanSkillName raw = n → n ≠ "" → isHex24 n = false →
        findSkillByExactName c10db n = some c10skill →
        syncSkills c10db [SIdent.str raw] ty r =
          Except.error (JsErr.typeErr "Cannot read properties of undefined")) ∧
      (∀ ty r, ty ≠ "manual" →
        removeSkillSource c10db (RIdent.str "ffffffffffffffffffffffff") ty r =
          Except.ok (saveSkill c10db c10skill, some c10skill)) ∧
      (∀ ep p, findProjectById c10db ep = some p →
        ∃ out, unlinkSkillFromEntity c10db (RIdent.str "ffffffffffffffffffffffff")
          "project" ep = Except.ok out)) :=
  ⟨by decide, by decide, by decide,
    c10_missing_referenceId_typeerror_scope c10db "ffffffffffffffffffffffff" c10skill
      (by decide) (by decide) (by decide)⟩

/-- Claim C7, counterexample to the unrestricted statement: for the
skill name `C++` (a name the repository's own category keywords list)
the first of the two `syncSkills(['C++'], 'project', P)` calls already
rejects with the `SyntaxError` from `new RegExp("^C++$", "i")`, so the
two calls do not yield one Skill record with one source entry. -/
theorem c7_counterexample_regex_name :
    syncSkills c7db [SIdent.str "C++"] "project" "545454545454545454545454" =
      Except.error (JsErr.synErr "Invalid regular expression: C++") := by
  decide

/-- Claim C7 (amended: restricted to names whose cleaned form is
nonempty, free of regex metacharacters, stable under cleaning and not
shaped like a 24-hex ObjectId): when the store holds no skill whose name
case-insensitively equals the cleaned name, calling
`syncSkills([name], 'project', P)` twice in a row yields exactly one
Skill record for the name, carrying exactly one `(project, P)` sources
entry; the second call changes nothing. -/
theorem c7_syncSkills_idempotent_for_clean_names
    (db : DB) (raw n P : String)
    (hclean : cleanSkillName raw = n) (hne : n ≠ "")
    (hhex : isHex24 n = false) (hsafe : regexSafe n = true)
    (hidem : cleanSkillName n = n)
    (hfresh : ∀ s ∈ db.skills, ciEq n s.name = false)
    (hfreshId : ∀ s ∈ db.skills, s.id ≠ genId db.nextId) :
    ∃ db1 sk,
      syncSkills db [SIdent.str raw] "project" P = Except.ok (db1, [sk]) ∧
      syncSkills db1 [SIdent.str raw] "project" P = Except.ok (db1, [sk]) ∧
      db1.skills.countP (fun s => ciEq n s.name) = 1 ∧
      db1.skills.find? (fun s => ciEq n s.name) = some sk ∧
      sk.name = n ∧ sk.sources = [⟨"project", some P⟩] := by
  refine ⟨DB.mk (db.skills ++ [Skill.mk (genId db.nextId) n (getCategoryForSkillName n)
      "Beginner" true [⟨"project", some P⟩]]) db.projects db.certifications
      db.education (db.nextId + 1),
    Skill.mk (genId db.nextId) n (getCategoryForSkillName n) "Beginner" true
      [⟨"project", some P⟩], ?_, ?_, ?_, ?_, rfl, rfl⟩
  · simp only [syncSkills, normalize_str_singleton db raw n hclean hne hhex,
      syncGo_singleton, syncOne_fresh_create "project" P db n hsafe hfresh hidem hne]
  · have hexact1 : findSkillByExactName (DB.mk (db.skills
        ++ [Skill.mk (genId db.nextId) n (getCategoryForSkillName n) "Beginner" true
          [⟨"project", some P⟩]]) db.projects db.certifications db.education
        (db.nextId + 1)) n
        = some (Skill.mk (genId db.nextId) n (getCategoryForSkillName n) "Beginner" true
          [⟨"project", some P⟩]) := by
      show (db.skills ++ [Skill.mk (genId db.nextId) n (getCategoryForSkillName n)
        "Beginner" true [⟨"project", some P⟩]]).find? (fun s => s.name == n)
        = some (Skill.mk (genId db.nextId) n (getCategoryForSkillName n) "Beginner" true
          [⟨"project", some P⟩])
      rw [find?_append_left_none _ _ _ (exactName_none_of_no_ci db n hfresh)]
      simp [List.find?]
    have hone := syncOne_exact_found "project" P (DB.mk (db.skills
        ++ [Skill.mk (genId db.nextId) n (getCategoryForSkillName n) "Beginner" true
          [⟨"project", some P⟩]]) db.projects db.certifications db.education
        (db.nextId + 1)) n
      (Skill.mk (genId db.nextId) n (getCategoryForSkillName n) "Beginner" true
        [⟨"project", some P⟩]) hexact1
    have hsrcfound : findSourceByRefId
        (Skill.mk (genId db.nextId) n (getCategoryForSkillName n) "Beginner" true
          [⟨"project", some P⟩]).sources P
        = Except.ok (some ⟨"project", some P⟩) := by
      simp [findSourceByRefId]
    have hsave : saveSkill (DB.mk (db.skills
        ++ [Skill.mk (genId db.nextId) n (getCategoryForSkillName n) "Beginner" true
          [⟨"project", some P⟩]]) db.projects db.certifications db.education
        (db.nextId + 1))
        (Skill.mk (genId db.nextId) n (getCategoryForSkillName n) "Beginner" true
          [⟨"project", some P⟩])
        = DB.mk (db.skills ++ [Skill.mk (genId db.nextId) n (getCategoryForSkillName n)
          "Beginner" true [⟨"project", some P⟩]]) db.projects db.certifications
          db.education (db.nextId + 1) := by
      simp only [saveSkill, List.map_append]
      rw [map_replace_fresh db.skills _ _ hfreshId]
      simp
    simp only [syncSkills, normalize_str_singleton _ raw n hclean hne hhex,
      syncGo_singleton, hone, hsrcfound, hsave]
  · show (db.skills ++ [Skill.mk (genId db.nextId) n (getCategoryForSkillName n)
      "Beginner" true [⟨"project", some P⟩]]).countP (fun s => ciEq n s.name) = 1
    rw [List.countP_append]
    have h0 : db.skills.countP (fun s => ciEq n s.name) = 0 :=
      List.countP_eq_zero.mpr (fun a ha => by simp [hfresh a ha])
    rw [h0]
    simp [List.countP_cons, ciEq_self]
  · show (db.skills ++ [Skill.mk (genId db.nextId) n (getCategoryForSkillName n)
      "Beginner" true [⟨"project", some P⟩]]).find? (fun s => ciEq n s.name)
      = some (Skill.mk (genId db.nextId) n (getCategoryForSkillName n) "Beginner" true
        [⟨"project", some P⟩])
    rw [find?_append_left_none _ _ _ (ciName_none_of_no_ci db n hfresh)]
    simp [List.find?, ciEq_self]

/-- `ciEq` only depends on the lowered pattern. -/
theorem ciEq_congr_left (a b : String) (h : lowerStr a = lowerStr b) (c : String) :
    ciEq a c = ciEq b c := by
  unfold ciEq
  rw [h]

/-- Claim C8: the identifiers `"React"` (with literal quotes), `react`
and ` React ` from three distinct referencing entities collapse — via
quote stripping, whitespace normalization and the case-insensitive
lookup — to one single Skill record holding three sources entries, with
no duplicate record. Stated over any store holding no skill
case-insensitively named `react` (and whose next generated id is
unused), with pairwise distinct referenceIds. -/
theorem c8_case_punctuation_collapse
    (db : DB) (t1 t2 t3 r1 r2 r3 : String)
    (hfresh : ∀ s ∈ db.skills, ciEq "React" s.name = false)
    (hfreshId : ∀ s ∈ db.skills, s.id ≠ genId db.nextId)
    (h12 : r1 ≠ r2) (h13 : r1 ≠ r3) (h23 : r2 ≠ r3) :
    ∃ db1 db2 db3 sk0 sk1 sk2,
      syncSkills db [SIdent.str "\"React\""] t1 r1 = Except.ok (db1, [sk0]) ∧
      syncSkills db1 [SIdent.str "react"] t2 r2 = Except.ok (db2, [sk1]) ∧
      syncSkills db2 [SIdent.str " React "] t3 r3 = Except.ok (db3, [sk2]) ∧
      sk2.name = "React" ∧
      sk2.sources = [⟨t1, some r1⟩, ⟨t2, some r2⟩, ⟨t3, some r3⟩] ∧
      db3.skills.countP (fun s => ciEq "React" s.name) = 1 ∧
      db3.skills.find? (fun s => ciEq "React" s.name) = some sk2 := by
  have hfresh2 : ∀ s ∈ db.skills, ciEq "react" s.name = false :=
    fun s hs => (ciEq_congr_left "react" "React" (by decide) s.name).trans (hfresh s hs)
  refine ⟨DB.mk (db.skills ++ [Skill.mk (genId db.nextId) "React"
      (getCategoryForSkillName "React") "Beginner" true [⟨t1, some r1⟩]])
      db.projects db.certifications db.education (db.nextId + 1),
    DB.mk (db.skills ++ [Skill.mk (genId db.nextId) "React"
      (getCategoryForSkillName "React") "Beginner" true [⟨t1, some r1⟩, ⟨t2, some r2⟩]])
      db.projects db.certifications db.education (db.nextId + 1),
    DB.mk (db.skills ++ [Skill.mk (genId db.nextId) "React"
      (getCategoryForSkillName "React") "Beginner" true
      [⟨t1, some r1⟩, ⟨t2, some r2⟩, ⟨t3, some r3⟩]])
      db.projects db.certifications db.education (db.nextId + 1),
    Skill.mk (genId db.nextId) "React" (getCategoryForSkillName "React") "Beginner" true
      [⟨t1, some r1⟩],
    Skill.mk (genId db.nextId) "React" (getCategoryForSkillName "React") "Beginner" true
      [⟨t1, some r1⟩, ⟨t2, some r2⟩],
    Skill.mk (genId db.nextId) "React" (getCategoryForSkillName "React") "Beginner" true
      [⟨t1, some r1⟩, ⟨t2, some r2⟩, ⟨t3, some r3⟩],
    ?_, ?_, ?_, rfl, rfl, ?_, ?_⟩
  · simp only [syncSkills, normalize_str_singleton db "\"React\"" "React" (by decide)
      (by decide) (by decide), syncGo_singleton,
      syncOne_fresh_create t1 r1 db "React" (by decide) hfresh (by decide) (by decide)]
  · have hexact2 : findSkillByExactName (DB.mk (db.skills
        ++ [Skill.mk (genId db.nextId) "React" (getCategoryForSkillName "React")
          "Beginner" true [⟨t1, some r1⟩]]) db.projects db.certifications db.education
        (db.nextId + 1)) "react" = none := by
      show (db.skills ++ [Skill.mk (genId db.nextId) "React"
        (getCategoryForSkillName "React") "Beginner" true
        [⟨t1, some r1⟩]]).find? (fun s => s.name == "react") = none
      rw [find?_append_left_none _ _ _ (exactName_none_of_no_ci db "react" hfresh2)]
      have hb : (("React" : String) == "react") = false := by decide
      simp [List.find?, hb]
    have hci2 : findSkillByNameCI (DB.mk (db.skills
        ++ [Skill.mk (genId db.nextId) "React" (getCategoryForSkillName "React")
          "Beginner" true [⟨t1, some r1⟩]]) db.projects db.certifications db.education
        (db.nextId + 1)) "react"
        = some (Skill.mk (genId db.nextId) "React" (getCategoryForSkillName "React")
          "Beginner" true [⟨t1, some r1⟩]) := by
      show (db.skills ++ [Skill.mk (genId db.nextId) "React"
        (getCategoryForSkillName "React") "Beginner" true
        [⟨t1, some r1⟩]]).find? (fun s => ciEq "react" s.name)
        = some (Skill.mk (genId db.nextId) "React" (getCategoryForSkillName "React")
          "Beginner" true [⟨t1, some r1⟩])
      rw [find?_append_left_none _ _ _ (ciName_none_of_no_ci db "react" hfresh2)]
      have ht : ciEq "react" "React" = true := by decide
      simp [List.find?, ht]
    have hvalid : anchoredRegexValid "react" = true := by decide
    have hsrc2 : findSourceByRefId [(⟨t1, some r1⟩ : Source)] r2 = Except.ok none := by
      simp [findSourceByRefId, beq_eq_false_iff_ne.mpr h12]
    have hsave2 : saveSkill (DB.mk (db.skills
        ++ [Skill.mk (genId db.nextId) "React" (getCategoryForSkillName "React")
          "Beginner" true [⟨t1, some r1⟩]]) db.projects db.certifications db.education
        (db.nextId + 1))
        (Skill.mk (genId db.nextId) "React" (getCategoryForSkillName "React") "Beginner"
          true [⟨t1, some r1⟩, ⟨t2, some r2⟩])
        = DB.mk (db.skills ++ [Skill.mk (genId db.nextId) "React"
          (getCategoryForSkillName "React") "Beginner" true
          [⟨t1, some r1⟩, ⟨t2, some r2⟩]]) db.projects db.certifications db.education
          (db.nextId + 1) := by
      simp only [saveSkill, List.map_append]
      rw [map_replace_fresh db.skills _ _ hfreshId]
      simp
    simp only [syncSkills, normalize_str_singleton _ "react" "react" (by decide)
      (by decide) (by decide), syncGo_singleton, syncOne, hexact2, hvalid, hci2,
      hsrc2, hsave2]
    simp [hsave2]
  · have hexact3 : findSkillByExactName (DB.mk (db.skills
        ++ [Skill.mk (genId db.nextId) "React" (getCategoryForSkillName "React")
          "Beginner" true [⟨t1, some r1⟩, ⟨t2, some r2⟩]]) db.projects
        db.certifications db.education (db.nextId + 1)) "React"
        = some (Skill.mk (genId db.nextId) "React" (getCategoryForSkillName "React")
          "Beginner" true [⟨t1, some r1⟩, ⟨t2, some r2⟩]) := by
      show (db.skills ++ [Skill.mk (genId db.nextId) "React"
        (getCategoryForSkillName "React") "Beginner" true
        [⟨t1, some r1⟩, ⟨t2, some r2⟩]]).find? (fun s => s.name == "React")
        = some (Skill.mk (genId db.nextId) "React" (getCategoryForSkillName "React")
          "Beginner" true [⟨t1, some r1⟩, ⟨t2, some r2⟩])
      rw [find?_append_left_none _ _ _ (exactName_none_of_no_ci db "React" hfresh)]
      simp [List.find?]
    have hone := syncOne_exact_found t3 r3 (DB.mk (db.skills
        ++ [Skill.mk (genId db.nextId) "React" (getCategoryForSkillName "React")
          "Beginner" true [⟨t1, some r1⟩, ⟨t2, some r2⟩]]) db.projects
        db.certifications db.education (db.nextId + 1)) "React"
      (Skill.mk (genId db.nextId) "React" (getCategoryForSkillName "React") "Beginner"
        true [⟨t1, some r1⟩, ⟨t2, some r2⟩]) hexact3
    have hsrc3 : findSourceByRefId [(⟨t1, some r1⟩ : Source), ⟨t2, some r2⟩] r3
        = Except.ok none := by
      simp [findSourceByRefId, beq_eq_false_iff_ne.mpr h13, beq_eq_false_iff_ne.mpr h23]
    have hsave3 : saveSkill (DB.mk (db.skills
        ++ [Skill.mk (genId db.nextId) "React" (getCategoryForSkillName "React")
          "Beginner" true [⟨t1, some r1⟩, ⟨t2, some r2⟩]]) db.projects
        db.certifications db.education (db.nextId + 1))
        (Skill.mk (genId db.nextId) "React" (getCategoryForSkillName "React") "Beginner"
          true [⟨t1, some r1⟩, ⟨t2, some r2⟩, ⟨t3, some r3⟩])
        = DB.mk (db.skills ++ [Skill.mk (genId db.nextId) "React"
          (getCategoryForSkillName "React") "Beginner" true
          [⟨t1, some r1⟩, ⟨t2, some r2⟩, ⟨t3, some r3⟩]]) db.projects
          db.certifications db.education (db.nextId + 1) := by
      simp only [saveSkill, List.map_append]
      rw [map_replace_fresh db.skills _ _ hfreshId]
      simp
    simp only [syncSkills, normalize_str_singleton _ " React " "React" (by decide)
      (by decide) (by decide), syncGo_singleton, hone, hsrc3, hsave3]
    simp [hsave3]
  · show (db.skills ++ [Skill.mk (genId db.nextId) "React"
      (getCategoryForSkillName "React") "Beginner" true
      [⟨t1, some r1⟩, ⟨t2, some r2⟩, ⟨t3, some r3⟩]]).countP
      (fun s => ciEq "React" s.name) = 1
    rw [List.countP_append]
    have h0 : db.skills.countP (fun s => ciEq "React" s.name) = 0 :=
      List.countP_eq_zero.mpr (fun a ha => by simp [hfresh a ha])
    rw [h0]
    have ht : ciEq "React" "React" = true := by decide
    simp [List.countP_cons, ht]
  · show (db.skills ++ [Skill.mk (genId db.nextId) "React"
      (getCategoryForSkillName "React") "Beginner" true
      [⟨t1, some r1⟩, ⟨t2, some r2⟩, ⟨t3, some r3⟩]]).find?
      (fun s => ciEq "React" s.name)
      = some (Skill.mk (genId db.nextId) "React" (getCategoryForSkillName "React")
        "Beginner" true [⟨t1, some r1⟩, ⟨t2, some r2⟩, ⟨t3, some r3⟩])
    rw [find?_append_left_none _ _ _ (ciName_none_of_no_ci db "React" hfresh)]
    have ht : ciEq "React" "React" = true := by decide
    simp [List.find?, ht]

/-- Claim C8 witness: the empty store with three distinct entity ids;
the hypotheses hold and the theorem applies. -/
theorem c8_witness :
    (∀ s ∈ c8wdb.skills, ciEq "React" s.name = false)
    ∧ (∀ s ∈ c8wdb.skills, s.id ≠ genId c8wdb.nextId)
    ∧ ("111111111111111111111111" ≠ "222222222222222222222222")
    ∧ ("111111111111111111111111" ≠ "333333333333333333333333")
    ∧ ("222222222222222222222222" ≠ "333333333333333333333333")
    ∧ (∃ db1 db2 db3 sk0 sk1 sk2,
      syncSkills c8wdb [SIdent.str "\"React\""] "project" "111111111111111111111111"
        = Except.ok (db1, [sk0]) ∧
      syncSkills db1 [SIdent.str "react"] "certification" "222222222222222222222222"
        = Except.ok (db2, [sk1]) ∧
      syncSkills db2 [SIdent.str " React "] "education" "333333333333333333333333"
        = Except.ok (db3, [sk2]) ∧
      sk2.name = "React" ∧
      sk2.sources = [⟨"project", some "111111111111111111111111"⟩,
        ⟨"certification", some "222222222222222222222222"⟩,
        ⟨"education", some "333333333333333333333333"⟩] ∧
      db3.skills.countP (fun s => ciEq "React" s.name) = 1 ∧
      db3.skills.find? (fun s => ciEq "React" s.name) = some sk2) :=
  ⟨by decide, by decide, by decide, by decide, by decide,
    c8_case_punctuation_collapse c8wdb "project" "certification" "education"
      "111111111111111111111111" "222222222222222222222222" "333333333333333333333333"
      (by decide) (by decide) (by decide) (by decide) (by decide)⟩

/-- Claim C7 witness: the name `React` on an empty store; the
hypotheses hold and the theorem applies. -/
theorem c7_witness :
    (cleanSkillName "React" = "React") ∧ ("React" ≠ "")
    ∧ (isHex24 "React" = false) ∧ (regexSafe "React" = true)
    ∧ (∀ s ∈ c7db.skills, ciEq "React" s.name = false)
    ∧ (∀ s ∈ c7db.skills, s.id ≠ genId c7db.nextId)
    ∧ (∃ db1 sk,
      syncSkills c7db [SIdent.str "React"] "project" "545454545454545454545454"
        = Except.ok (db1, [sk]) ∧
      syncSkills db1 [SIdent.str "React"] "project" "545454545454545454545454"
        = Except.ok (db1, [sk]) ∧
      db1.skills.countP (fun s => ciEq "React" s.name) = 1 ∧
      db1.skills.find? (fun s => ciEq "React" s.name) = some sk ∧
      sk.name = "React" ∧ sk.sources = [⟨"project", some "545454545454545454545454"⟩]) :=
  ⟨by decide, by decide, by decide, by decide, by decide, by decide,
    c7_syncSkills_idempotent_for_clean_names c7db "React" "React"
      "545454545454545454545454" (by decide) (by decide) (by decide) (by decide)
      (by decide) (by decide) (by decide)⟩

end Portfolio
